import Mathlib

/-!
Shallow embedding of the `reedline-repl-rs` fork (zhuwenshen): the command
registry, tokenizer, dispatch engine, session loop, tab completer and the
parameter schema builder, together with theorems settling the spec claims.

External collaborators (the `shlex`, `clap` and `reedline` crates, and the
standard library's `Debug` formatter) are modelled at the interface the
source uses:
  * `shlex::split` is reimplemented from its documented POSIX-like word
    splitting semantics (whitespace separation, single/double quotes,
    backslash escapes, `#` comments, `None` on erroneous quoting);
  * a clap `Command` appears as its name/about/argument metadata plus an
    opaque argument-binding function carried by each registered command;
  * printing (`println!` / `eprintln!`), help rendering, callback and hook
    invocations and `read_line` calls are recorded as events in a trace.
Rust `panic!`s (e.g. `Vec::drain` on an empty vector) are modelled as
`Option.none` results.
-/

namespace ReplRs

/-- Observable actions of the engine: stdout lines, stderr lines, rendered
help screens, post-command-hook invocations, `read_line` calls, lines fed
into `process_line`, and aborts by panic. -/
inductive Event where
  | out (s : String)
  | errOut (s : String)
  | helpShown (cmd : Option String)
  | hookInvoked
  | readLine
  | dispatch (line : String)
  | panicked
  deriving Repr, DecidableEq

/-! ## Model of `shlex::split` (external crate used by `parse_line`) -/

/-- Word-separating whitespace recognised by `shlex` (space, tab, newline). -/
def isShlexWhitespace (c : Char) : Bool :=
  c == ' ' || c == '\t' || c == '\n'

/-- Single-quoted section: everything up to the closing `'` is literal;
`none` when the quote is unterminated. Returns the section's characters and
the input remaining after the closing quote. -/
def parseSingle : List Char → Option (List Char × List Char)
  | [] => none
  | c :: rest =>
    if c = '\'' then some ([], rest)
    else
      match parseSingle rest with
      | some (w, r) => some (c :: w, r)
      | none => none

/-- Double-quoted section: `\` escapes `$`, a backtick, `"` and `\`,
a backslash-newline disappears, any other backslash pair is kept verbatim;
`none` when the quote (or a trailing escape) is unterminated. -/
def parseDouble : List Char → Option (List Char × List Char)
  | [] => none
  | c :: rest =>
    if c = '"' then some ([], rest)
    else if c = '\\' then
      match rest with
      | [] => none
      | c2 :: rest2 =>
        let keep :=
          if c2 = '$' ∨ c2 = '`' ∨ c2 = '"' ∨ c2 = '\\' then [c2]
          else if c2 = '\n' then []
          else ['\\', c2]
        match parseDouble rest2 with
        | some (w, r) => some (keep ++ w, r)
        | none => none
    else
      match parseDouble rest with
      | some (w, r) => some (c :: w, r)
      | none => none

/-- One word of `shlex` input, starting at the already-consumed character
`ch`: plain characters, quoted sections and escapes concatenate until
unquoted whitespace or the end of input; `none` on erroneous quoting or a
dangling escape. Fuel only bounds the recursion; one unit is spent per
consumed character, so any fuel above the input length is enough. -/
def parseWordF : Nat → Char → List Char → Option (List Char × List Char)
  | 0, _, _ => none
  | fuel + 1, ch, rest =>
    if isShlexWhitespace ch then some ([], rest)
    else if ch = '"' then
      match parseDouble rest with
      | none => none
      | some (w, r) =>
        match r with
        | [] => some (w, [])
        | c2 :: r2 =>
          match parseWordF fuel c2 r2 with
          | none => none
          | some (w2, r3) => some (w ++ w2, r3)
    else if ch = '\'' then
      match parseSingle rest with
      | none => none
      | some (w, r) =>
        match r with
        | [] => some (w, [])
        | c2 :: r2 =>
          match parseWordF fuel c2 r2 with
          | none => none
          | some (w2, r3) => some (w ++ w2, r3)
    else if ch = '\\' then
      match rest with
      | [] => none
      | c2 :: r2 =>
        let keep := if c2 = '\n' then ([] : List Char) else [c2]
        match r2 with
        | [] => some (keep, [])
        | c3 :: r3 =>
          match parseWordF fuel c3 r3 with
          | none => none
          | some (w2, r4) => some (keep ++ w2, r4)
    else
      match rest with
      | [] => some ([ch], [])
      | c2 :: r2 =>
        match parseWordF fuel c2 r2 with
        | none => none
        | some (w2, r3) => some (ch :: w2, r3)

/-- The word iterator of `shlex`: skip whitespace, skip `#` comments to the
end of the line, otherwise read one word; `none` as soon as a word errors. -/
def splitWordsF : Nat → List Char → Option (List (List Char))
  | 0, _ => none
  | fuel + 1, l =>
    match l with
    | [] => some []
    | c :: rest =>
      if isShlexWhitespace c then splitWordsF fuel rest
      else if c = '#' then splitWordsF fuel (rest.dropWhile (fun ch => ch ≠ '\n'))
      else
        match parseWordF (fuel + 1) c rest with
        | none => none
        | some (w, r) =>
          match splitWordsF fuel r with
          | none => none
          | some ws => some (w :: ws)

/-- `shlex::split`: `Some(words)` on well-formed input, `None` on erroneous
quoting (unterminated quote, dangling backslash). -/
def shlexSplit (s : String) : Option (List String) :=
  (splitWordsF (s.length * 2 + 2) s.toList).map (fun ws => ws.map (fun w => String.mk w))

/-! ## Model of the standard `Debug` rendering used by `println!("new :{..}")`
(the format string's debug directive); covers the escapes reachable from
`shlex` output over the character set exercised here. -/

/-- Escape of one character inside a `Debug`-rendered string literal. -/
def rustDebugCharEsc (c : Char) : String :=
  if c = '"' then "\\\""
  else if c = '\\' then "\\\\"
  else if c = '\n' then "\\n"
  else if c = '\t' then "\\t"
  else if c = '\r' then "\\r"
  else String.mk [c]

/-- `Debug` rendering of one `String`. -/
def rustDebugStr (s : String) : String :=
  "\"" ++ String.join (s.toList.map rustDebugCharEsc) ++ "\""

/-- `Debug` rendering of a `Vec<String>`. -/
def rustDebugList (xs : List String) : String :=
  "[" ++ String.intercalate ", " (xs.map rustDebugStr) ++ "]"

/-! ## Character-level models of the Rust `str` operations the source uses
(`trim`, `is_empty`, `contains`, `split(' ')`, `starts_with`, byte slicing).
They are structurally recursive so that concrete runs evaluate; byte
positions appear as character positions, which agree on the single-byte
characters exercised by the claims. -/

/-- Rust `str::trim`. -/
def strTrim (s : String) : String :=
  String.mk (((s.toList.dropWhile Char.isWhitespace).reverse.dropWhile
    Char.isWhitespace).reverse)

/-- Rust `str::is_empty`. -/
def strIsEmpty (s : String) : Bool := s.toList.isEmpty

/-- Rust `str::contains(char)`. -/
def strContainsChar (s : String) (c : Char) : Bool :=
  s.toList.any (fun x => x == c)

/-- Rust `str::split(' ')` over the character list: splits at every space,
keeping empty pieces, so the result is always non-empty. -/
def splitOnSpaceChars : List Char → List (List Char)
  | [] => [[]]
  | c :: rest =>
    if c = ' ' then [] :: splitOnSpaceChars rest
    else
      match splitOnSpaceChars rest with
      | [] => [[c]]
      | w :: ws => (c :: w) :: ws

/-- Rust `str::split(' ')`. -/
def strSplitSpace (s : String) : List String :=
  (splitOnSpaceChars s.toList).map (fun w => String.mk w)

/-- Rust `str::starts_with(prefix)`. -/
def strStartsWith (s pre : String) : Bool :=
  s.toList.take pre.toList.length == pre.toList

/-- Rust slicing `&s[0..n]`. -/
def strTake (s : String) (n : Nat) : String := String.mk (s.toList.take n)

/-! ## Error taxonomy -/

/-- Modelled from the spec: the error taxonomy of the crate (`src/error.rs`
is not among the provided sources; `repl.rs` and `parameter.rs` use
`Error::UnknownCommand`, `Error::IllegalRequiredError` and
`Error::IllegalDefaultError`, and the spec's section 4.5 lists exactly these
engine-raised kinds with their payloads). -/
inductive Error where
  | UnknownCommand (name : String)
  | IllegalRequiredError (parameter : String)
  | IllegalDefaultError (parameter : String)
  deriving Repr, DecidableEq

/-! ## Command definitions and the `Repl` state

A registered command (`ReplCommand`) bundles its name, the clap `Command`
and the host callback. The clap binding step
(`command.try_get_matches_from_mut(argv)`) is external; each definition
carries it as a function `bind` from the full argv (command name followed by
args) to either bound matches (kept opaque as a token list) or a rendered
usage error. The callback maps matches and the context to a host result and
an updated context, mirroring `fn(&ArgMatches, &mut Context) ->
Result<Option<String>, E>`. -/
structure CmdDef (Ctx E : Type) where
  name : String
  bind : List String → Except String (List String)
  callback : List String → Ctx → Except E (Option String) × Ctx

/-- The `Repl` state: the fields of `struct Repl` that the dispatch engine,
session loop and registry read or write. The reedline configuration fields
(keybindings, history, completion flags, hinter) only parameterise the
external line editor and are not modelled. `error_handler` returns the
stderr lines it prints and whether it returned `Ok` (the default handler
prints the error's display form and returns `Ok`); `fromError` models the
`E: From<Error>` bound and `display` the `E: Display` bound. -/
structure Repl (Ctx E : Type) where
  name : String
  banner : Option String
  version : String
  description : String
  prompt : String
  after_command_callback : Option (Ctx → Except E (Option String) × Ctx)
  commands : List (String × CmdDef Ctx E)
  context : Ctx
  stop_on_ctrl_c : Bool
  stop_on_ctrl_d : Bool
  error_handler : E → List String × Bool
  fromError : Error → E
  display : E → String
  init_commands : List String

variable {Ctx E : Type}

/-- `HashMap::get` over the registry, modelled as first-match lookup in an
association list whose keys are kept unique by `insertReplace`. -/
def lookupCmd (m : List (String × CmdDef Ctx E)) (name : String) :
    Option (CmdDef Ctx E) :=
  (m.find? (fun p => p.1 == name)).map Prod.snd

/-- `HashMap::insert`: replaces the entry at an existing key, otherwise adds
a new entry. -/
def insertReplace (m : List (String × CmdDef Ctx E)) (name : String)
    (d : CmdDef Ctx E) : List (String × CmdDef Ctx E) :=
  if m.any (fun p => p.1 == name) then
    m.map (fun p => if p.1 == name then (name, d) else p)
  else m ++ [(name, d)]

/-- `Repl::with_command`: registers `d` under the name taken from the clap
command (`command.get_name()`, here `d.name`). -/
def with_command (r : Repl Ctx E) (d : CmdDef Ctx E) : Repl Ctx E :=
  { r with commands := insertReplace r.commands d.name d }

/-- `Repl::with_init_commands`: stores the given lines reversed; the run
loop later consumes them with `Vec::pop` (from the back). -/
def with_init_commands (r : Repl Ctx E) (init_commands : List String) :
    Repl Ctx E :=
  { r with init_commands := init_commands.reverse }

/-- `Repl::show_help`: with no argument prints the header and the
clap-aggregated command summary; with an argument prints that command's
help when registered, otherwise a not-found diagnostic to stderr. The
clap-rendered text (and its ANSI colouring) is external and appears as a
`helpShown` event. -/
def show_help (r : Repl Ctx E) (args : List String) : List Event :=
  match args with
  | [] =>
    [Event.out (r.name ++ " " ++ r.version ++ "\n" ++ r.description ++ "\n"),
     Event.helpShown none]
  | a :: _ =>
    if r.commands.any (fun p => p.1 == a) then [Event.helpShown (some a)]
    else [Event.errOut ("Help not found for command " ++ a)]

/-- `Repl::execute_after_command_callback`: when a hook is registered it is
invoked (recorded as `hookInvoked`); `Ok(Some(p))` rewrites the prompt,
`Ok(None)` does nothing, and a hook error is printed to stderr and
swallowed — the function itself always returns `Ok`. -/
def execute_after_command_callback (r : Repl Ctx E) :
    Except E Unit × Repl Ctx E × List Event :=
  match r.after_command_callback with
  | some callback =>
    match callback r.context with
    | (Except.ok (some new_prompt), ctx) =>
      (Except.ok (), { r with context := ctx, prompt := new_prompt },
       [Event.hookInvoked])
    | (Except.ok none, ctx) =>
      (Except.ok (), { r with context := ctx }, [Event.hookInvoked])
    | (Except.error err, ctx) =>
      (Except.ok (), { r with context := ctx },
       [Event.hookInvoked,
        Event.errOut ("failed to execute after_command_callback " ++ r.display err)])
  | none => (Except.ok (), r, [])

/-- `Repl::handle_command`: registry hit binds the argv; bound matches run
the callback (`Ok(Some)` prints, `Err` returns the error to the caller
without reaching the after-command callback), a binding failure prints the
usage error; both the `Ok` arms and the binding-failure arm then run
`execute_after_command_callback`. On a registry miss, `help` and `exit` are
handled in place and anything else is `Error::UnknownCommand`. -/
def handle_command (r : Repl Ctx E) (command : String) (args : List String) :
    Except E Unit × Repl Ctx E × List Event :=
  match lookupCmd r.commands command with
  | some definition =>
    match definition.bind (command :: args) with
    | Except.ok matched =>
      match definition.callback matched r.context with
      | (Except.ok (some value), ctx) =>
        let out := execute_after_command_callback { r with context := ctx }
        (out.1, out.2.1, Event.out value :: out.2.2)
      | (Except.ok none, ctx) =>
        execute_after_command_callback { r with context := ctx }
      | (Except.error e, ctx) => (Except.error e, { r with context := ctx }, [])
    | Except.error usage =>
      let out := execute_after_command_callback r
      (out.1, out.2.1, Event.errOut usage :: out.2.2)
  | none =>
    if command == "help" then (Except.ok (), r, show_help r args)
    else if command == "exit" then
      (Except.ok (), { r with stop_on_ctrl_c := true }, [])
    else (Except.error (r.fromError (Error.UnknownCommand command)), r, [])

/-- `Repl::parse_line`: `shlex::split` with `None` replaced by the empty
vector, the `println!("new :{..}", args)` diagnostic, then
`args.drain(..1)` to extract the command name — which panics (modelled as
`none`) when the vector is empty. -/
def parse_line (line : String) : List Event × Option (String × List String) :=
  let args := (shlexSplit line).getD []
  let ev := Event.out ("new :" ++ rustDebugList args)
  match args with
  | [] => ([ev], none)
  | command :: rest => ([ev], some (command, rest))

/-- `Repl::process_line`: trims the line, ignores it when empty, otherwise
parses and dispatches it. The leading `dispatch` event marks the line being
fed through `process_line`; `none` propagates a `parse_line` panic. -/
def process_line (r : Repl Ctx E) (line : String) :
    List Event × Option (Except E Unit × Repl Ctx E) :=
  let trimmed := strTrim line
  if strIsEmpty trimmed then ([Event.dispatch line], some (Except.ok (), r))
  else
    match parse_line trimmed with
    | (pevs, none) => (Event.dispatch line :: pevs, none)
    | (pevs, some (command, args)) =>
      let out := handle_command r command args
      (Event.dispatch line :: (pevs ++ out.2.2), some (out.1, out.2.1))

/-! ## Session loop -/

/-- `Vec::pop`: removes and returns the last element. -/
def popBack (l : List α) : Option (α × List α) :=
  match l.getLast? with
  | none => none
  | some x => some (x, l.dropLast)

theorem popBack_length {l : List α} {x : α} {rest : List α}
    (h : popBack l = some (x, rest)) : rest.length < l.length := by
  cases l with
  | nil => simp [popBack] at h
  | cons a as =>
    unfold popBack at h
    rcases hg : (a :: as).getLast? with _ | y
    · simp [hg] at h
    · rw [hg] at h
      simp only [Option.some.injEq, Prod.mk.injEq] at h
      rw [← h.2]
      simp [List.length_dropLast]

theorem popBack_reverse_cons (x : α) (xs : List α) :
    popBack ((x :: xs).reverse) = some (x, xs.reverse) := by
  unfold popBack
  rw [show (x :: xs).reverse = xs.reverse ++ [x] by simp]
  rw [List.getLast?_concat, List.dropLast_concat]

/-- The three reedline signals `read_line` can deliver. -/
inductive Signal where
  | success (line : String)
  | ctrlC
  | ctrlD

/-- The body of `Repl::run`'s loop. Each iteration first pops a pending
init line and processes it exactly like typed input (error handler, then
the `stop_on_ctrl_c` check); once the init queue is empty it reads a signal
from the line editor (`readLine` event). The model ends the loop when the
supplied signal list is exhausted, a panic aborts the whole run
(`panicked` event), and an error handler that returns `Err` makes `run`
return early. The fuel argument only bounds the iteration count; every
iteration shortens the init queue or the signal list, so the fuel `run`
supplies is never exhausted. -/
def runLoop : Nat → Repl Ctx E → List String → List Signal →
    List Event × Repl Ctx E
  | 0, r, _, _ => ([], r)
  | fuel + 1, r, pending, inputs =>
  match popBack pending with
  | some (line, rest) =>
    let out := process_line r line
    match out.2 with
    | none => (out.1 ++ [Event.panicked], r)
    | some (res, r') =>
      match res with
      | Except.ok _ =>
        if r'.stop_on_ctrl_c then (out.1, r')
        else
          let next := runLoop fuel r' rest inputs
          (out.1 ++ next.1, next.2)
      | Except.error e =>
        let handled := r'.error_handler e
        let hevs := handled.1.map Event.errOut
        if !handled.2 then (out.1 ++ hevs, r')
        else if r'.stop_on_ctrl_c then (out.1 ++ hevs, r')
        else
          let next := runLoop fuel r' rest inputs
          (out.1 ++ hevs ++ next.1, next.2)
  | none =>
    match inputs with
    | [] => ([], r)
    | sig :: sigs =>
      let inner :=
        match sig with
        | Signal.success line =>
          let out := process_line r line
          match out.2 with
          | none => (out.1 ++ [Event.panicked], r)
          | some (res, r') =>
            match res with
            | Except.ok _ =>
              if r'.stop_on_ctrl_c then (out.1, r')
              else
                let next := runLoop fuel r' [] sigs
                (out.1 ++ next.1, next.2)
            | Except.error e =>
              let handled := r'.error_handler e
              let hevs := handled.1.map Event.errOut
              if !handled.2 then (out.1 ++ hevs, r')
              else if r'.stop_on_ctrl_c then (out.1 ++ hevs, r')
              else
                let next := runLoop fuel r' [] sigs
                (out.1 ++ hevs ++ next.1, next.2)
        | Signal.ctrlC =>
          if r.stop_on_ctrl_c then ([], r)
          else runLoop fuel r [] sigs
        | Signal.ctrlD =>
          if r.stop_on_ctrl_d then ([], r)
          else runLoop fuel r [] sigs
      (Event.readLine :: inner.1, inner.2)

/-- `Repl::run`: prints the banner when configured and enters the loop with
the stored init queue. -/
def run (r : Repl Ctx E) (inputs : List Signal) : List Event × Repl Ctx E :=
  let bannerEvs :=
    match r.banner with
    | some b => [Event.out b]
    | none => []
  let out := runLoop (r.init_commands.length + inputs.length + 1) r r.init_commands inputs
  (bannerEvs ++ out.1, out.2)

/-! ## Trace observations -/

/-- Number of post-command-hook invocations recorded in a trace. -/
def countHook (evs : List Event) : Nat := evs.count Event.hookInvoked

/-- Whether an event is a `read_line` call. -/
def isReadLineEv : Event → Bool
  | Event.readLine => true
  | _ => false

/-- The line carried by a `dispatch` event. -/
def dispatchOf : Event → Option String
  | Event.dispatch s => some s
  | _ => none

/-- The lines fed through `process_line` before the first `read_line`
call. -/
def initDispatches (evs : List Event) : List String :=
  (evs.takeWhile (fun e => !isReadLineEv e)).filterMap dispatchOf

/-- Whether processing the given lines in order from state `r` runs to the
end of the list: no tokenizer panic, no error-handler abort, and the
termination flag never set. Mirrors one init iteration of `runLoop`. -/
def processedOk : Repl Ctx E → List String → Bool
  | _, [] => true
  | r, l :: rest =>
    match (process_line r l).2 with
    | none => false
    | some (res, r') =>
      let hOk :=
        match res with
        | Except.ok _ => true
        | Except.error e => (r'.error_handler e).2
      if !hOk then false
      else if r'.stop_on_ctrl_c then false
      else processedOk r' rest

/-! ## Tab completer (`completer.rs`)

The completer holds a snapshot of each registered clap `Command`; of a clap
command it reads only the metadata below (`get_name`, `get_about`,
`get_arguments`, and per argument `get_possible_values` with each value's
name and help, `get_long`, `get_short`, `get_help`). -/

/-- reedline `Span` (`Span::new(start, end)`). -/
structure Span where
  start : Nat
  stop : Nat
  deriving Repr, DecidableEq

/-- reedline `Suggestion` as constructed by this completer. -/
structure Suggestion where
  value : String
  description : Option String
  extra : Option (List String)
  span : Span
  append_whitespace : Bool
  deriving Repr, DecidableEq

/-- Completion-relevant metadata of one clap argument. -/
structure ClapArg where
  possible_values : Option (List (String × Option String))
  long : Option String
  short : Option Char
  help : Option String
  deriving Repr, DecidableEq

/-- Completion-relevant metadata of one clap command. -/
structure ClapCommand where
  name : String
  about : Option String
  arguments : List ClapArg
  deriving Repr, DecidableEq

/-- `ReplCompleter`: the per-name snapshot of the registered clap
commands. -/
structure ReplCompleter where
  commands : List (String × ClapCommand)
  deriving Repr, DecidableEq

/-- `HashMap::get` on the completer's snapshot. -/
def lookupClap (m : List (String × ClapCommand)) (name : String) :
    Option ClapCommand :=
  (m.find? (fun p => p.1 == name)).map Prod.snd

/-- `ReplCompleter::parameter_values_starting_with`: for each argument of
the command (the `_parameter_idx` argument is accepted but never read), its
declared possible values whose name starts with the prefix, then its long
flag `--name` and short flag `-x` when they start with the prefix. -/
def parameter_values_starting_with (command : ClapCommand)
    (_parameter_idx : Nat) (pre : String) (start pos : Nat) :
    List Suggestion :=
  command.arguments.flatMap (fun arg =>
    (match arg.possible_values with
     | some possible_values =>
       (possible_values.filter (fun v => strStartsWith v.1 pre)).map (fun v =>
         { value := v.1, description := v.2, extra := none,
           span := ⟨start, pos⟩, append_whitespace := true })
     | none => [])
    ++ (match arg.long with
        | some long =>
          if strStartsWith ("--" ++ long) pre then
            [{ value := "--" ++ long, description := arg.help, extra := none,
               span := ⟨start, pos⟩, append_whitespace := true }]
          else []
        | none => [])
    ++ (match arg.short with
        | some short =>
          if strStartsWith ("-" ++ short.toString) pre then
            [{ value := "-" ++ short.toString, description := arg.help,
               extra := none, span := ⟨start, pos⟩, append_whitespace := true }]
          else []
        | none => []))

/-- `ReplCompleter::commands_starting_with`: registered command names that
start with the prefix (`append_whitespace = true`), plus the literal
`help` when it starts with the prefix (`append_whitespace = false`). -/
def commands_starting_with (c : ReplCompleter) (pre : String) (pos : Nat) :
    List Suggestion :=
  ((c.commands.filter (fun p => strStartsWith p.1 pre)).map (fun p =>
    { value := p.2.name, description := p.2.about, extra := none,
      span := ⟨0, pos⟩, append_whitespace := true }))
  ++ (if strStartsWith "help" pre then
        [{ value := "help", description := some "show help", extra := none,
           span := ⟨0, pos⟩, append_whitespace := false }]
      else [])

/-- `Vec::dedup` tail: drops elements equal to the previous kept one. -/
def dedupLoop (prev : Suggestion) : List Suggestion → List Suggestion
  | [] => []
  | b :: rest => if prev == b then dedupLoop prev rest else b :: dedupLoop b rest

/-- `Vec::dedup`: collapses adjacent equal elements, keeping the first of
each run. -/
def dedupConsec : List Suggestion → List Suggestion
  | [] => []
  | a :: rest => a :: dedupLoop a rest

/-- `ReplCompleter::complete`. When the whole line contains a space, the
part of the line before the cursor is split on spaces; its first word is
looked up and, when registered, the last word before the cursor becomes the
search prefix handed to `parameter_values_starting_with` together with the
count of the words between the first and the last. When the line contains
no space, `commands_starting_with` runs on the whole line. `none` models
the `splitted.next().unwrap()` panic (a registered first word with no
further word before the cursor). Byte positions of the source are modelled
as character positions; the claims only exercise single-byte characters. -/
def complete (c : ReplCompleter) (line : String) (pos : Nat) :
    Option (List Suggestion) :=
  let completions :=
    if strContainsChar line ' ' then
      match strSplitSpace (strTake line pos) with
      | [] => none
      | first :: rest =>
        match lookupClap c.commands first with
        | some command =>
          match rest.reverse with
          | [] => none
          | last :: others =>
            let start := line.toList.length - last.toList.length
            some (parameter_values_starting_with command others.length last start pos)
        | none => some []
    else some (commands_starting_with c line pos)
  completions.map dedupConsec

/-! ## Parameter schema builder (`parameter.rs`) -/

/-- `struct Parameter`. -/
structure Parameter where
  name : String
  required : Bool
  default : Option String
  help_summary : Option String
  allowed_values : List (String × Option String)
  deriving Repr, DecidableEq

/-- `Parameter::new`. -/
def Parameter.new (name : String) : Parameter :=
  { name := name, required := false, allowed_values := [], default := none,
    help_summary := none }

/-- `Parameter::set_required`: rejected with `IllegalRequiredError`
whenever a default is already present, otherwise stores the flag. -/
def Parameter.set_required (p : Parameter) (required : Bool) :
    Except Error Parameter :=
  if p.default.isSome then Except.error (Error.IllegalRequiredError p.name)
  else Except.ok { p with required := required }

/-- `Parameter::set_default`: rejected with `IllegalDefaultError` when the
parameter is required, otherwise stores the default. -/
def Parameter.set_default (p : Parameter) (defaultVal : String) :
    Except Error Parameter :=
  if p.required then Except.error (Error.IllegalDefaultError p.name)
  else Except.ok { p with default := some defaultVal }

/-! ## Shared concrete instances (used by witnesses and counterexamples) -/

/-- A minimal host instantiation: `Nat` context, `String` host error, a
registered hook that keeps the prompt, the default print-and-continue
error handler, and an empty registry. -/
def baseRepl : Repl Nat String :=
  { name := "repl", banner := none, version := "", description := "",
    prompt := "repl> ",
    after_command_callback := some (fun ctx => (Except.ok none, ctx)),
    commands := [], context := 0,
    stop_on_ctrl_c := false, stop_on_ctrl_d := true,
    error_handler := fun e => ([e], true),
    fromError := fun err =>
      match err with
      | Error.UnknownCommand n => "Unknown command: " ++ n
      | Error.IllegalRequiredError n => "Illegal required: " ++ n
      | Error.IllegalDefaultError n => "Illegal default: " ++ n,
    display := fun s => s, init_commands := [] }

/-! ## Registry lemmas (claim C8) -/

theorem lookupCmd_nil (n : String) :
    lookupCmd ([] : List (String × CmdDef Ctx E)) n = none := rfl

theorem lookupCmd_cons (q : String × CmdDef Ctx E)
    (qs : List (String × CmdDef Ctx E)) (n : String) :
    lookupCmd (q :: qs) n = if q.1 == n then some q.2 else lookupCmd qs n := by
  unfold lookupCmd
  cases hq : q.1 == n <;> simp [List.find?, hq]

theorem lookupCmd_map_update (m : List (String × CmdDef Ctx E)) (n : String)
    (d : CmdDef Ctx E) :
    lookupCmd (m.map (fun p => if p.1 == n then (n, d) else p)) n
      = if m.any (fun p => p.1 == n) then some d else none := by
  induction m with
  | nil => simp [lookupCmd]
  | cons p ps ih =>
    by_cases hp : p.1 = n
    · simp [List.map_cons, lookupCmd_cons, hp, List.any_cons]
    · have hb : (p.1 == n) = false := by simpa using hp
      simp only [List.map_cons, lookupCmd_cons, List.any_cons, hb,
        Bool.false_eq_true, if_false, Bool.false_or]
      exact ih

theorem lookupCmd_append_single (m : List (String × CmdDef Ctx E)) (n : String)
    (d : CmdDef Ctx E) (h : m.any (fun p => p.1 == n) = false) :
    lookupCmd (m ++ [(n, d)]) n = some d := by
  induction m with
  | nil => simp [lookupCmd_cons, lookupCmd]
  | cons p ps ih =>
    simp only [List.any_cons, Bool.or_eq_false_iff] at h
    simp [List.cons_append, lookupCmd_cons, h.1, ih h.2]

theorem lookupCmd_insertReplace_self (m : List (String × CmdDef Ctx E))
    (n : String) (d : CmdDef Ctx E) :
    lookupCmd (insertReplace m n d) n = some d := by
  unfold insertReplace
  cases hany : m.any (fun p => p.1 == n) with
  | false => simpa [hany] using lookupCmd_append_single m n d hany
  | true =>
    have := lookupCmd_map_update m n d
    rw [hany] at this
    simpa [hany] using this

theorem lookupCmd_map_update_other (m : List (String × CmdDef Ctx E))
    (n n' : String) (d : CmdDef Ctx E) (h : n' ≠ n) :
    lookupCmd (m.map (fun p => if p.1 == n then (n, d) else p)) n'
      = lookupCmd m n' := by
  have hne : (n == n') = false := by
    simp only [beq_eq_false_iff_ne, ne_eq]
    exact fun hh => h hh.symm
  induction m with
  | nil => simp [lookupCmd]
  | cons p ps ih =>
    by_cases hp : p.1 = n
    · have hhead : (if p.1 == n then (n, d) else p) = (n, d) := by simp [hp]
      have hpn' : (p.1 == n') = false := by rw [hp]; exact hne
      simp only [List.map_cons, hhead, lookupCmd_cons, hne, hpn',
        Bool.false_eq_true, if_false]
      exact ih
    · have hhead : (if p.1 == n then (n, d) else p) = p := by simp [hp]
      simp only [List.map_cons, hhead, lookupCmd_cons]
      cases hpn' : p.1 == n'
      · simp only [Bool.false_eq_true, if_false]
        exact ih
      · simp

theorem lookupCmd_append_single_other (m : List (String × CmdDef Ctx E))
    (n n' : String) (d : CmdDef Ctx E) (h : n' ≠ n) :
    lookupCmd (m ++ [(n, d)]) n' = lookupCmd m n' := by
  have hne : (n == n') = false := by
    simp only [beq_eq_false_iff_ne, ne_eq]
    exact fun hh => h hh.symm
  induction m with
  | nil => simp [lookupCmd_cons, lookupCmd, hne]
  | cons p ps ih =>
    cases hpn' : p.1 == n' <;>
      simp [List.cons_append, lookupCmd_cons, hpn', ih]

theorem lookupCmd_insertReplace_other (m : List (String × CmdDef Ctx E))
    (n n' : String) (d : CmdDef Ctx E) (h : n' ≠ n) :
    lookupCmd (insertReplace m n d) n' = lookupCmd m n' := by
  unfold insertReplace
  cases hany : m.any (fun p => p.1 == n) with
  | false => simpa [hany] using lookupCmd_append_single_other m n n' d h
  | true => simpa [hany] using lookupCmd_map_update_other m n n' d h

/-- C8: registration is last-wins — after `with_command r d`, looking up
`d.name` yields `d` (so the previous definition under that name, and in
particular its callback, is unreachable), and the lookup of every other
name `n' ≠ d.name` is unchanged, so lookups of two distinct registered
names never resolve to one and the same (re)registered entry. -/
theorem C8_register_last_wins (r : Repl Ctx E) (d : CmdDef Ctx E)
    (n' : String) (h : n' ≠ d.name) :
    lookupCmd (with_command r d).commands d.name = some d ∧
    lookupCmd (with_command r d).commands n' = lookupCmd r.commands n' :=
  ⟨lookupCmd_insertReplace_self r.commands d.name d,
   lookupCmd_insertReplace_other r.commands d.name n' d h⟩

/-- The first registration of the name `greet`. -/
def dOld : CmdDef Nat String :=
  { name := "greet", bind := fun _ => Except.ok [],
    callback := fun _ ctx => (Except.ok (some "old"), ctx) }

/-- A re-registration of the name `greet`. -/
def dNew : CmdDef Nat String :=
  { name := "greet", bind := fun _ => Except.ok [],
    callback := fun _ ctx => (Except.ok (some "new"), ctx) }

/-- Witness for C8: re-registering `greet` replaces the entry, and the
lookup of the unrelated name `other` is untouched. -/
theorem C8_witness :
    lookupCmd (with_command (with_command baseRepl dOld) dNew).commands
        dNew.name = some dNew ∧
    lookupCmd (with_command (with_command baseRepl dOld) dNew).commands
        "other"
      = lookupCmd (with_command baseRepl dOld).commands "other" :=
  ⟨(C8_register_last_wins (with_command baseRepl dOld) dNew "other"
      (by decide)).1,
   (C8_register_last_wins (with_command baseRepl dOld) dNew "other"
      (by decide)).2⟩

/-! ## Parameter schema construction (claim C9) -/

/-- C9 (amended): `set_required` fails with `IllegalRequiredError(name)`
exactly when a default is already set — regardless of the requested
boolean, so even `set_required(false)` fails then — and otherwise stores
the flag; `set_default` fails with `IllegalDefaultError(name)` exactly when
the parameter is already required, and otherwise stores the default. Both
surface synchronously as `Result` values of the builder calls. -/
theorem C9_schema_flag_errors (p : Parameter) (b : Bool) (d : String) :
    (Parameter.set_required p b
        = Except.error (Error.IllegalRequiredError p.name)
      ↔ p.default.isSome = true) ∧
    (p.default.isSome = false →
      Parameter.set_required p b = Except.ok { p with required := b }) ∧
    (Parameter.set_default p d
        = Except.error (Error.IllegalDefaultError p.name)
      ↔ p.required = true) ∧
    (p.required = false →
      Parameter.set_default p d = Except.ok { p with default := some d }) := by
  refine ⟨?_, ?_, ?_, ?_⟩
  · unfold Parameter.set_required
    cases h : p.default.isSome <;> simp [h]
  · intro h
    unfold Parameter.set_required
    simp [h]
  · unfold Parameter.set_default
    cases h : p.required <;> simp [h]
  · intro h
    unfold Parameter.set_default
    simp [h]

/-- Witness for C9: on a fresh parameter both builder calls succeed, with
the hypotheses of `C9_schema_flag_errors` discharged by evaluation. -/
theorem C9_witness :
    Parameter.set_required (Parameter.new "x") true
        = Except.ok { Parameter.new "x" with required := true } ∧
    Parameter.set_default (Parameter.new "x") "v"
        = Except.ok { Parameter.new "x" with default := some "v" } :=
  ⟨(C9_schema_flag_errors (Parameter.new "x") true "v").2.1 rfl,
   (C9_schema_flag_errors (Parameter.new "x") true "v").2.2.2 rfl⟩

/-- Counterexample for C9 as stated: `set_required(false)` does not attempt
to mark the parameter required, yet after `set_default` it still fails with
`IllegalRequiredError` — the failure condition is the presence of a
default, not the attempt to require. -/
theorem C9_counterexample :
    (Parameter.set_default (Parameter.new "p") "d").bind
        (fun q => Parameter.set_required q false)
      = Except.error (Error.IllegalRequiredError "p") := rfl

/-! ## Completion over argument positions (claim C7) -/

theorem filter_map_eq_filterMap {α β : Type} (p : α → Bool) (f : α → β)
    (l : List α) :
    (l.filter p).map f
      = l.filterMap (fun a => if p a then some (f a) else none) := by
  induction l with
  | nil => rfl
  | cons a as ih =>
    by_cases h : p a <;> simp [List.filter_cons, List.filterMap_cons, h, ih]

/-- The amended completion behaviour, written as the spec sentence would
have to read: the positional index plays no role; the value suggestions
are drawn from the declared allowed-value sets of all schema parameters,
filtered by prefix, and the long and short flags of every parameter are
offered when they prefix-match. -/
def paramValuesAllParameters (command : ClapCommand) (pre : String)
    (start pos : Nat) : List Suggestion :=
  command.arguments.flatMap (fun arg =>
    ((arg.possible_values.getD []).filterMap (fun v =>
        if strStartsWith v.1 pre then
          some { value := v.1, description := v.2, extra := none,
                 span := ⟨start, pos⟩, append_whitespace := true }
        else none))
    ++ ((arg.long.map (fun long => "--" ++ long)).toList.filterMap
        (fun flag =>
          if strStartsWith flag pre then
            some { value := flag, description := arg.help, extra := none,
                   span := ⟨start, pos⟩, append_whitespace := true }
          else none))
    ++ ((arg.short.map (fun short => "-" ++ short.toString)).toList.filterMap
        (fun flag =>
          if strStartsWith flag pre then
            some { value := flag, description := arg.help, extra := none,
                   span := ⟨start, pos⟩, append_whitespace := true }
          else none)))

/-- C7 (amended): the positional index passed to
`parameter_values_starting_with` is ignored — any two indices give the same
suggestions, and the result enumerates the allowed values and flags of
every schema parameter, not just the one at the computed index. -/
theorem C7_positional_index_ignored (command : ClapCommand) (i j : Nat)
    (pre : String) (start pos : Nat) :
    parameter_values_starting_with command i pre start pos
        = parameter_values_starting_with command j pre start pos ∧
    parameter_values_starting_with command i pre start pos
        = paramValuesAllParameters command pre start pos := by
  refine ⟨rfl, ?_⟩
  unfold parameter_values_starting_with paramValuesAllParameters
  congr 1
  funext arg
  congr 2
  · cases hpv : arg.possible_values with
    | none => simp
    | some pv => simp [filter_map_eq_filterMap]
  · cases hlo : arg.long with
    | none => simp
    | some lo =>
      cases h : strStartsWith ("--" ++ lo) pre <;>
        simp [Option.toList, List.filterMap, h]
  · cases hsh : arg.short with
    | none => simp
    | some sh =>
      cases h : strStartsWith ("-" ++ sh.toString) pre <;>
        simp [Option.toList, List.filterMap, h]

/-- A two-parameter schema: parameter 0 allows `alpha`, parameter 1 allows
`beta` and exposes the flags `--who` / `-w`. -/
def cmdTwoParams : ClapCommand :=
  { name := "c", about := none,
    arguments :=
      [{ possible_values := some [("alpha", none)], long := none,
         short := none, help := none },
       { possible_values := some [("beta", none)], long := some "who",
         short := some 'w', help := some "target" }] }

/-- Counterexample for C7 as stated: at positional index 0 the completer
also offers `beta` (declared only for parameter 1), and at index 5 — beyond
the two-parameter schema — it still offers every value instead of none. -/
theorem C7_counterexample :
    (parameter_values_starting_with cmdTwoParams 0 "" 0 0).map
        Suggestion.value = ["alpha", "beta", "--who", "-w"] ∧
    (parameter_values_starting_with cmdTwoParams 5 "" 0 0).map
        Suggestion.value = ["alpha", "beta", "--who", "-w"] ∧
    (parameter_values_starting_with cmdTwoParams 5 "" 0 0).map
        Suggestion.value ≠ [] :=
  ⟨rfl, rfl, by decide⟩

/-! ## Completion at the command-name position (claim C6) -/

/-- The amended command-position completion, written as the spec sentence
would have to read: when the whole line contains no space, the suggestions
are the registered command names that have the whole line as a prefix, each
spanning positions `0..cursor` with a trailing space appended, plus the
literal `help` when it prefix-matches — with `append_trailing_space`
set to `false` on the `help` suggestion — with adjacent duplicates
collapsed. -/
def completeNoSpaceSpec (c : ReplCompleter) (line : String) (pos : Nat) :
    List Suggestion :=
  dedupConsec
    ((c.commands.filterMap (fun p =>
        if strStartsWith p.1 line then
          some { value := p.2.name, description := p.2.about, extra := none,
                 span := ⟨0, pos⟩, append_whitespace := true }
        else none))
      ++ (if strStartsWith "help" line then
            [{ value := "help", description := some "show help",
               extra := none, span := ⟨0, pos⟩, append_whitespace := false }]
          else []))

/-- C6 (amended): when the whole line contains no space (the code tests the
entire line, not the part before the cursor), `complete` succeeds and
returns exactly the suggestions described by `completeNoSpaceSpec`. -/
theorem C6_command_position_completion (c : ReplCompleter) (line : String)
    (pos : Nat) (h : strContainsChar line ' ' = false) :
    complete c line pos = some (completeNoSpaceSpec c line pos) := by
  unfold complete completeNoSpaceSpec commands_starting_with
  rw [h]
  simp only [Bool.false_eq_true, if_false, Option.map_some]
  rw [filter_map_eq_filterMap]
  rfl

/-- The registered command `hello`, as the completer's snapshot sees it. -/
def cmdHello : ClapCommand :=
  { name := "hello", about := some "Greetings!", arguments := [] }

/-- Witness for C6: completing the spaceless line `hel` at cursor 3 against
a registry holding `hello`, with the hypothesis discharged by evaluation. -/
theorem C6_witness :
    complete { commands := [("hello", cmdHello)] } "hel" 3
      = some (completeNoSpaceSpec { commands := [("hello", cmdHello)] }
          "hel" 3) :=
  C6_command_position_completion { commands := [("hello", cmdHello)] }
    "hel" 3 rfl

/-- Counterexample for C6 as stated: on the spaceless line `hel` the
built-in `help` suggestion carries `append_whitespace = false`, not `true`;
and with the cursor at position 3 of `hel lo` — where the line up to the
cursor contains no whitespace — the completer returns no command-name
suggestions at all (it branches on the whole line containing a space, looks
up `hel` as a command name, and finds nothing), instead of offering
`hello` and `help`. -/
theorem C6_counterexample :
    ((complete { commands := [] } "hel" 3).getD []).all
        (fun s => s.append_whitespace) = false ∧
    complete { commands := [("hello", cmdHello)] } "hel lo" 3 = some [] :=
  ⟨rfl, rfl⟩

/-! ## Post-command hook accounting (claims C1, C3, C4) -/

theorem countHook_execute_after (r : Repl Ctx E)
    (h : r.after_command_callback.isSome = true) :
    countHook (execute_after_command_callback r).2.2 = 1 := by
  unfold execute_after_command_callback
  rcases hcb : r.after_command_callback with _ | cb
  · rw [hcb] at h
    simp at h
  · rcases hres : cb r.context with ⟨res, ctx⟩
    rcases res with e | v
    · simp [hcb, hres, countHook, List.count_cons]
    · rcases v with _ | pp <;> simp [hcb, hres, countHook, List.count_cons]

theorem countHook_show_help (r : Repl Ctx E) (args : List String) :
    countHook (show_help r args) = 0 := by
  unfold show_help
  cases args with
  | nil => simp [countHook, List.count_cons]
  | cons a rest =>
    cases h : r.commands.any (fun p => p.1 == a) <;>
      simp [h, countHook, List.count_cons]

/-- C1 (amended): for a dispatched line that resolves to a registered
command and binds successfully, with a post-command hook registered: when
the callback returns `Ok` the hook runs exactly once, but when the callback
returns `Err(e)` the error is returned immediately and the hook does not
run at all — the failure path of Invoking skips the hook. -/
theorem C1_hook_on_callback_outcomes (r : Repl Ctx E) (command : String)
    (args : List String) (d : CmdDef Ctx E) (matched : List String)
    (hlook : lookupCmd r.commands command = some d)
    (hbind : d.bind (command :: args) = Except.ok matched)
    (hhook : r.after_command_callback.isSome = true) :
    (∀ v ctx, d.callback matched r.context = (Except.ok v, ctx) →
      countHook (handle_command r command args).2.2 = 1) ∧
    (∀ e ctx, d.callback matched r.context = (Except.error e, ctx) →
      countHook (handle_command r command args).2.2 = 0 ∧
      (handle_command r command args).1 = Except.error e) := by
  constructor
  · intro v ctx hcb
    simp only [handle_command, hlook, hbind, hcb]
    cases v with
    | some value =>
      have h1 := countHook_execute_after { r with context := ctx }
        (by simpa using hhook)
      simp only [countHook, List.count_cons] at h1 ⊢
      simp [h1]
    | none =>
      simpa using countHook_execute_after { r with context := ctx }
        (by simpa using hhook)
  · intro e ctx hcb
    simp only [handle_command, hlook, hbind, hcb]
    simp [countHook]

/-- The registered command `boom` whose callback always fails. -/
def dBoom : CmdDef Nat String :=
  { name := "boom", bind := fun _ => Except.ok [],
    callback := fun _ ctx => (Except.error "boom failed", ctx) }

/-- The registered command `hi` whose callback succeeds with output. -/
def dHi : CmdDef Nat String :=
  { name := "hi", bind := fun _ => Except.ok [],
    callback := fun _ ctx => (Except.ok (some "hi there"), ctx) }

/-- Witness for C1: with a hook registered, a successfully bound `hi` line
whose callback succeeds runs the hook exactly once. -/
theorem C1_witness :
    countHook (handle_command (with_command baseRepl dHi) "hi" []).2.2 = 1 :=
  (C1_hook_on_callback_outcomes (with_command baseRepl dHi) "hi" [] dHi []
      rfl rfl rfl).1 (some "hi there") 0 rfl

/-- Counterexample for C1 as stated: a hook is registered and the `boom`
line binds successfully, yet when its callback returns `Err`, zero hook
invocations occur and the error is propagated — the hook does not run on
the failure path. -/
theorem C1_counterexample :
    countHook (handle_command (with_command baseRepl dBoom) "boom" []).2.2
        = 0 ∧
    (handle_command (with_command baseRepl dBoom) "boom" []).1
        = Except.error "boom failed" :=
  ⟨rfl, rfl⟩

/-- C3 (amended): the post-command hook never runs for a `help` or `exit`
line (when no registered command shadows those names), but for a line whose
argument binding failed the hook does run, exactly once — binding failure
is not exempt from the hook. -/
theorem C3_hook_exemptions (r : Repl Ctx E) (args : List String) :
    (lookupCmd r.commands "help" = none →
      countHook (handle_command r "help" args).2.2 = 0) ∧
    (lookupCmd r.commands "exit" = none →
      countHook (handle_command r "exit" args).2.2 = 0) ∧
    (∀ command d usage, lookupCmd r.commands command = some d →
      d.bind (command :: args) = Except.error usage →
      r.after_command_callback.isSome = true →
      countHook (handle_command r command args).2.2 = 1) := by
  refine ⟨?_, ?_, ?_⟩
  · intro h
    simp only [handle_command, h]
    simp [countHook_show_help]
  · intro h
    simp only [handle_command, h]
    simp [countHook]
  · intro command d usage hlook hbind hhook
    simp only [handle_command, hlook, hbind]
    have h1 := countHook_execute_after r hhook
    simp only [countHook, List.count_cons] at h1 ⊢
    simp [h1]

/-- The registered command `sum` whose argument binding always fails. -/
def dBindFail : CmdDef Nat String :=
  { name := "sum", bind := fun _ => Except.error "usage: sum",
    callback := fun _ ctx => (Except.ok none, ctx) }

/-- Witness for C3: against a registry holding only `sum`, a `help` line
and an `exit` line run the hook zero times while a binding-failing `sum`
line runs it once; all hypotheses discharged by evaluation. -/
theorem C3_witness :
    countHook (handle_command (with_command baseRepl dBindFail) "help"
        []).2.2 = 0 ∧
    countHook (handle_command (with_command baseRepl dBindFail) "exit"
        []).2.2 = 0 ∧
    countHook (handle_command (with_command baseRepl dBindFail) "sum"
        []).2.2 = 1 :=
  ⟨(C3_hook_exemptions (with_command baseRepl dBindFail) []).1 rfl,
   (C3_hook_exemptions (with_command baseRepl dBindFail) []).2.1 rfl,
   (C3_hook_exemptions (with_command baseRepl dBindFail) []).2.2 "sum"
     dBindFail "usage: sum" rfl rfl rfl⟩

/-- The registered command `mul` whose argument binding always fails. -/
def dBindFail2 : CmdDef Nat String :=
  { name := "mul", bind := fun _ => Except.error "usage: mul",
    callback := fun _ ctx => (Except.ok none, ctx) }

/-- Counterexample for C3 as stated: a line whose argument binding failed
(the adapter reported `usage: mul`) nevertheless runs the registered hook,
once — not zero times. -/
theorem C3_counterexample :
    countHook (handle_command (with_command baseRepl dBindFail2) "mul"
        ["x"]).2.2 = 1 ∧
    (handle_command (with_command baseRepl dBindFail2) "mul" ["x"]).1
        = Except.ok () :=
  ⟨rfl, rfl⟩

/-- C4 (amended): the built-ins are available only while no registered
command uses their name: when `exit` is absent from the registry,
dispatching it sets the loop-termination flag (`stop_on_ctrl_c`) and emits
nothing, and when `help` is absent, dispatching it renders help directly
and leaves the state untouched; a registered command with either name
shadows the built-in. -/
theorem C4_builtins_when_unregistered (r : Repl Ctx E) (args : List String) :
    (lookupCmd r.commands "exit" = none →
      handle_command r "exit" args
        = (Except.ok (), { r with stop_on_ctrl_c := true }, [])) ∧
    (lookupCmd r.commands "help" = none →
      handle_command r "help" args = (Except.ok (), r, show_help r args)) := by
  constructor
  · intro h
    simp only [handle_command, h]
    simp
  · intro h
    simp only [handle_command, h]
    simp

/-- Witness for C4: with an empty registry, `exit` sets the termination
flag and `help` renders help; hypotheses discharged by evaluation. -/
theorem C4_witness :
    handle_command baseRepl "exit" []
        = (Except.ok (), { baseRepl with stop_on_ctrl_c := true }, []) ∧
    handle_command baseRepl "help" []
        = (Except.ok (), baseRepl, show_help baseRepl []) :=
  ⟨(C4_builtins_when_unregistered baseRepl []).1 rfl,
   (C4_builtins_when_unregistered baseRepl []).2 rfl⟩

/-- A host command registered under the name `exit`. -/
def dExitShadow : CmdDef Nat String :=
  { name := "exit", bind := fun _ => Except.ok [],
    callback := fun _ ctx => (Except.ok (some "exit hijacked"), ctx) }

/-- Counterexample for C4 as stated: with `exit` present in the registry,
dispatching `exit` runs the registry entry (its output appears) and the
loop-termination flag stays `false` — the built-in is shadowed, so it is
not available for every contents of the registry. -/
theorem C4_counterexample :
    (handle_command (with_command
        { baseRepl with after_command_callback := none } dExitShadow)
        "exit" []).2.1.stop_on_ctrl_c = false ∧
    (handle_command (with_command
        { baseRepl with after_command_callback := none } dExitShadow)
        "exit" []).2.2 = [Event.out "exit hijacked"] :=
  ⟨rfl, rfl⟩

/-! ## Tokenization (claims C2 and C10) -/

/-- C2 (amended): tokenization is not total. When the `shlex` split of a
line succeeds with at least one token, `parse_line` prints the diagnostic
and returns the head token as the command name and the tail as the
arguments; but whenever the split fails (erroneous quoting, e.g. an
unterminated double quote) or produces no token, the `None` is replaced by
an empty vector and extracting the command name from it panics (modelled as
`none`) — the remainder of an unterminated quote is not turned into a
single token. -/
theorem C2_tokenization_not_total (line : String) :
    (∀ t ts, shlexSplit line = some (t :: ts) →
      parse_line line
        = ([Event.out ("new :" ++ rustDebugList (t :: ts))],
           some (t, ts))) ∧
    ((shlexSplit line).getD [] = [] → (parse_line line).2 = none) := by
  constructor
  · intro t ts h
    simp [parse_line, h]
  · intro h
    simp [parse_line, h]

/-- Witness for C2: the spec's own positive example `cmd "a b" c`
tokenizes into the command `cmd` with arguments `a b` and `c`; and the
unterminated-quote line, whose split fails, panics. Both hypotheses are
discharged by evaluation. -/
theorem C2_witness :
    parse_line "cmd \"a b\" c"
        = ([Event.out ("new :" ++ rustDebugList ["cmd", "a b", "c"])],
           some ("cmd", ["a b", "c"])) ∧
    (parse_line "\"unterminated").2 = none :=
  ⟨(C2_tokenization_not_total "cmd \"a b\" c").1 "cmd" ["a b", "c"] rfl,
   (C2_tokenization_not_total "\"unterminated").2 rfl⟩

/-- Counterexample for C2 as stated: on the line `"abc` — an unterminated
double quote — `shlex::split` fails, so no token at all is produced (the
remainder is not one token), and `parse_line` and `process_line` panic
(`none`) instead of tokenizing. -/
theorem C2_counterexample :
    shlexSplit "\"abc" = none ∧
    (parse_line "\"abc").2 = none ∧
    (process_line baseRepl "\"abc").2 = none :=
  ⟨rfl, rfl, rfl⟩

/-- C10: for every line that is non-empty after trimming, `process_line`
prints — before any dispatch output — the diagnostic line `new :` followed
by the `Debug` rendering of the full token vector to standard output. -/
theorem C10_diagnostic_print (r : Repl Ctx E) (line : String)
    (h : strIsEmpty (strTrim line) = false) :
    ∃ rest, (process_line r line).1
      = Event.dispatch line
        :: Event.out ("new :"
             ++ rustDebugList ((shlexSplit (strTrim line)).getD []))
        :: rest := by
  unfold process_line
  simp only [h, Bool.false_eq_true, if_false]
  rcases hargs : (shlexSplit (strTrim line)).getD [] with _ | ⟨c, rest⟩
  · refine ⟨[], ?_⟩
    simp [parse_line, hargs]
  · refine ⟨(handle_command r c rest).2.2, ?_⟩
    simp [parse_line, hargs]

/-- Witness for C10: on the line ` foo bar ` the first printed event is the
diagnostic with the token vector's debug rendering; the hypothesis is
discharged by evaluation. -/
theorem C10_witness :
    ∃ rest, (process_line baseRepl " foo bar ").1
      = Event.dispatch " foo bar "
        :: Event.out ("new :"
             ++ rustDebugList ((shlexSplit (strTrim " foo bar ")).getD []))
        :: rest :=
  C10_diagnostic_print baseRepl " foo bar " rfl

/-! ## Order of init-line dispatch in the session loop (claim C5) -/

/-- Events that are neither `read_line` calls nor `process_line` markers:
everything the engine emits strictly inside one line's processing. -/
def plainEv : Event → Bool
  | Event.readLine => false
  | Event.dispatch _ => false
  | _ => true

theorem plainEv_not_readLine {e : Event} (h : plainEv e = true) :
    isReadLineEv e = false := by
  cases e <;> simp_all [plainEv, isReadLineEv]

theorem plainEv_dispatchOf {e : Event} (h : plainEv e = true) :
    dispatchOf e = none := by
  cases e <;> simp_all [plainEv, dispatchOf]

theorem plain_execute_after (r : Repl Ctx E) :
    (execute_after_command_callback r).2.2.all plainEv = true := by
  unfold execute_after_command_callback
  rcases hcb : r.after_command_callback with _ | cb
  · simp
  · rcases hres : cb r.context with ⟨res, ctx⟩
    rcases res with e | v
    · simp [hres, plainEv]
    · rcases v with _ | pp <;> simp [hres, plainEv]

theorem plain_show_help (r : Repl Ctx E) (args : List String) :
    (show_help r args).all plainEv = true := by
  unfold show_help
  cases args with
  | nil => simp [plainEv]
  | cons a rest =>
    cases h : r.commands.any (fun p => p.1 == a) <;> simp [h, plainEv]

theorem plain_handle_command (r : Repl Ctx E) (command : String)
    (args : List String) :
    (handle_command r command args).2.2.all plainEv = true := by
  unfold handle_command
  rcases hlook : lookupCmd r.commands command with _ | d
  · cases hh : command == "help"
    · cases he : command == "exit" <;> simp [hh, he]
    · simp [hh, plain_show_help]
  · rcases hbind : d.bind (command :: args) with u | m
    · simp [hbind, plainEv, plain_execute_after r]
    · rcases hcb : d.callback m r.context with ⟨res, ctx⟩
      rcases res with e | v
      · simp [hbind, hcb]
      · rcases v with _ | value
        · simpa [hbind, hcb] using
            plain_execute_after { r with context := ctx }
        · simp [hbind, hcb, plainEv,
            plain_execute_after { r with context := ctx }]

theorem plain_map_errOut (hs : List String) :
    (hs.map Event.errOut).all plainEv = true := by
  induction hs with
  | nil => rfl
  | cons a as ih => simp [plainEv, ih]

theorem parse_line_fst (l : String) :
    (parse_line l).1
      = [Event.out ("new :" ++ rustDebugList ((shlexSplit l).getD []))] := by
  unfold parse_line
  rcases h : (shlexSplit l).getD [] with _ | ⟨c, rest⟩ <;> simp [h]

/-- `process_line` always opens its trace with the `dispatch` marker, and
nothing after the marker is another marker or a `read_line` call. -/
theorem process_line_fst (r : Repl Ctx E) (l : String) :
    ∃ tail, (process_line r l).1 = Event.dispatch l :: tail ∧
      tail.all plainEv = true := by
  unfold process_line
  cases hie : strIsEmpty (strTrim l)
  · simp only [hie, Bool.false_eq_true, if_false]
    have h1 := parse_line_fst (strTrim l)
    rcases hp : parse_line (strTrim l) with ⟨pevs, pres⟩
    rw [hp] at h1
    simp only at h1
    rcases pres with _ | ⟨c, args⟩
    · exact ⟨pevs, by simp, by simp [h1, plainEv]⟩
    · refine ⟨pevs ++ (handle_command r c args).2.2, by simp, ?_⟩
      simp [List.all_append, h1, plainEv, plain_handle_command]
  · exact ⟨[], by simp [hie], rfl⟩

theorem takeWhile_append_of_all {α : Type} (p : α → Bool) (xs ys : List α)
    (h : xs.all p = true) :
    (xs ++ ys).takeWhile p = xs ++ ys.takeWhile p := by
  induction xs with
  | nil => simp
  | cons a as ih =>
    simp only [List.all_cons, Bool.and_eq_true] at h
    simp [List.takeWhile_cons, h.1, ih h.2]

theorem filterMap_dispatchOf_plain (xs : List Event)
    (h : xs.all plainEv = true) : xs.filterMap dispatchOf = [] := by
  induction xs with
  | nil => rfl
  | cons a as ih =>
    simp only [List.all_cons, Bool.and_eq_true] at h
    simp [List.filterMap_cons, plainEv_dispatchOf h.1, ih h.2]

theorem initDispatches_plain_append (xs ys : List Event)
    (h : xs.all plainEv = true) :
    initDispatches (xs ++ ys) = initDispatches ys := by
  have h2 : xs.all (fun e => !isReadLineEv e) = true := by
    rw [List.all_eq_true] at h ⊢
    intro e he
    simp [plainEv_not_readLine (h e he)]
  unfold initDispatches
  rw [takeWhile_append_of_all _ xs _ h2, List.filterMap_append,
    filterMap_dispatchOf_plain xs h]
  simp

theorem initDispatches_cons_dispatch (l : String) (ys : List Event) :
    initDispatches (Event.dispatch l :: ys) = l :: initDispatches ys := by
  unfold initDispatches
  simp [List.takeWhile_cons, isReadLineEv, List.filterMap_cons, dispatchOf]

theorem initDispatches_readLine (ys : List Event) :
    initDispatches (Event.readLine :: ys) = [] := by
  unfold initDispatches
  simp [List.takeWhile_cons, isReadLineEv]

/-- With the init queue exhausted, the loop dispatches nothing before its
first `read_line` call. -/
theorem initDispatches_runLoop_noInit (fuel : Nat) (r : Repl Ctx E)
    (inputs : List Signal) :
    initDispatches (runLoop fuel r [] inputs).1 = [] := by
  cases fuel with
  | zero => rfl
  | succ f =>
    cases inputs with
    | nil => rfl
    | cons sig sigs => exact initDispatches_readLine _

/-- The induction behind C5: with the stored (reversed) queue, the loop
processes the original lines front to back, so the dispatch markers before
the first `read_line` are exactly the original list, provided processing
runs to the end of the list. -/
theorem runLoop_init_fifo (ls : List String) :
    ∀ (fuel : Nat) (r : Repl Ctx E) (inputs : List Signal),
      ls.length ≤ fuel → processedOk r ls = true →
      initDispatches (runLoop fuel r ls.reverse inputs).1 = ls := by
  induction ls with
  | nil =>
    intro fuel r inputs _ _
    simpa using initDispatches_runLoop_noInit fuel r inputs
  | cons l rest ih =>
    intro fuel r inputs hfuel hok
    cases fuel with
    | zero => simp at hfuel
    | succ f =>
      have hfuel' : rest.length ≤ f := by
        simp only [List.length_cons] at hfuel
        omega
      unfold processedOk at hok
      rcases hpl : (process_line r l).2 with _ | ⟨res, r'⟩
      · simp [hpl] at hok
      · simp only [hpl] at hok
        obtain ⟨tail, htr, htail⟩ := process_line_fst r l
        simp only [runLoop, popBack_reverse_cons, hpl]
        rcases res with e | u
        · cases hh : (r'.error_handler e).2
          · simp [hh] at hok
          · cases hstop : r'.stop_on_ctrl_c
            · have hok' : processedOk r' rest = true := by
                simpa [hh, hstop] using hok
              simp only [hh, hstop, Bool.not_true, Bool.false_eq_true,
                if_false]
              rw [htr, List.append_assoc, List.cons_append,
                initDispatches_cons_dispatch,
                initDispatches_plain_append _ _ htail,
                initDispatches_plain_append _ _
                  (plain_map_errOut (r'.error_handler e).1),
                ih f r' inputs hfuel' hok']
            · simp [hh, hstop] at hok
        · cases hstop : r'.stop_on_ctrl_c
          · have hok' : processedOk r' rest = true := by
              simpa [hstop] using hok
            simp only [hstop, Bool.false_eq_true, if_false]
            rw [htr, List.cons_append, initDispatches_cons_dispatch,
              initDispatches_plain_append _ _ htail,
              ih f r' inputs hfuel' hok']
          · simp [hstop] at hok

/-- C5 (amended): pre-seeded init lines are fed through the same dispatch
path as typed input in first-in-first-out order — `with_init_commands`
stores the list reversed and the loop pops from the back, so for a
configured list `[l1, ..., ln]` line `l1` is dispatched first and `ln`
last — and all of them before the first `read_line` call, provided no init
line panics the tokenizer, sets the termination flag, or makes the error
handler abort the run. -/
theorem C5_init_lines_fifo (r : Repl Ctx E) (ls : List String)
    (inputs : List Signal)
    (h : processedOk (with_init_commands r ls) ls = true) :
    initDispatches (run (with_init_commands r ls) inputs).1 = ls := by
  unfold run
  have hb : (match (with_init_commands r ls).banner with
      | some b => [Event.out b]
      | none => ([] : List Event)).all plainEv = true := by
    cases (with_init_commands r ls).banner <;> simp [plainEv]
  simp only []
  rw [initDispatches_plain_append _ _ hb]
  have hic : (with_init_commands r ls).init_commands = ls.reverse := rfl
  rw [hic]
  exact runLoop_init_fifo ls _ (with_init_commands r ls) inputs
    (by simp [hic]; omega) h

/-- Witness for C5: a single unknown init line `alpha` is dispatched, in
order, before any `read_line`; the hypothesis is discharged by
evaluation. -/
theorem C5_witness :
    initDispatches (run (with_init_commands baseRepl ["alpha"]) []).1
      = ["alpha"] :=
  C5_init_lines_fifo baseRepl ["alpha"] [] rfl

/-- Counterexample for C5 as stated: for the configured init list
`["first", "second"]` the engine dispatches `first` first and `second`
last — first-in-first-out — whereas last-in-first-out would dispatch
`second` first. -/
theorem C5_counterexample :
    initDispatches (run (with_init_commands baseRepl ["first", "second"])
        []).1 = ["first", "second"] ∧
    (["first", "second"] : List String) ≠ ["second", "first"] :=
  ⟨rfl, by decide⟩

end ReplRs
